import Mathlib

/-!
Verification development for the document-manager widget
(`src/composables/useDocuments.ts` and `src/views/Documents.vue`).

The composable is embedded shallowly: each async operation becomes a pure
function from the pre-state and the outcomes of its remote calls to the
post-state, the list of remote requests it issued, and its result
(`Except` models throwing).  Remote services (blob store, metadata table)
are opaque: their replies are parameters; the metadata table's query
evaluation is modelled separately for the fetch claim.
-/

namespace DocApp

/-- Metadata row for one uploaded file (`interface Document` in
`useDocuments.ts`). -/
structure Document where
  id : String
  user_id : String
  symbol_root : String
  file_name : String
  file_size : Nat
  file_type : String
  storage_path : String
  uploaded_at : String
  description : Option String := none
deriving DecidableEq

/-- An error value as seen by a `catch (err)` block: `isError` models the
`err instanceof Error` test, `message` the `.message` field. -/
structure JsError where
  isError : Bool
  message : String
deriving DecidableEq

/-- The expression `err instanceof Error ? err.message : fallback`. -/
def catchMessage (fallback : String) (e : JsError) : String :=
  if e.isError then e.message else fallback

/-- The reactive state owned by `useDocuments`: `documents`, `isLoading`,
`error`, `uploadProgress`. -/
structure DocState where
  documents : List Document
  isLoading : Bool
  error : Option String
  uploadProgress : Nat
deriving DecidableEq

/-- One remote request issued to the backend (metadata table or blob store). -/
inductive RemoteCall where
  | dbSelect (symbol_root : String) (user_id : Option String)
  | storageUpload (path : String)
  | dbInsert (user_id symbol_root file_name : String) (file_size : Nat)
      (file_type storage_path : String) (description : Option String)
  | storageDownload (path : String)
  | storageRemove (path : String)
  | dbDelete (id : String)
deriving DecidableEq

/-- Is this call the metadata-row insert? -/
def RemoteCall.isDbInsert : RemoteCall → Bool
  | .dbInsert .. => true
  | _ => false

/-- Is this call the metadata-row delete? -/
def RemoteCall.isDbDelete : RemoteCall → Bool
  | .dbDelete _ => true
  | _ => false

/-- The parts of a `File` value the code reads: `name`, `size`, `type`. -/
structure FileInfo where
  name : String
  size : Nat
  type : String
deriving DecidableEq

/-- One character of `file.name.replace(/[^a-zA-Z0-9.-]/g, '_')`: a character
matched by the negated class is replaced by an underscore. -/
def sanitizeChar (c : Char) : Char :=
  if (decide ('a' ≤ c) && decide (c ≤ 'z')) || (decide ('A' ≤ c) && decide (c ≤ 'Z'))
      || (decide ('0' ≤ c) && decide (c ≤ '9')) || c == '.' || c == '-' then c else '_'

/-- The call `file.name.replace(/[^a-zA-Z0-9.-]/g, '_')` (global, character-wise). -/
def sanitizeFileName (name : String) : String :=
  ⟨name.data.map sanitizeChar⟩

/-- The storage path template
`${symbolRoot}/${userId}/${timestamp}_${sanitizedFileName}`. -/
def storagePathFor (symbolRoot userId : String) (timestamp : Nat) (fileName : String) : String :=
  symbolRoot ++ "/" ++ userId ++ "/" ++ toString timestamp ++ "_" ++ sanitizeFileName fileName

/-- JavaScript `description || null`: the empty string is falsy and also
becomes null. -/
def jsOrNull (s : Option String) : Option String :=
  match s with
  | some v => if v = "" then none else some v
  | none => none

/-- The operation `uploadDocument(file, symbolRoot, userId, description?)`.  `timestamp`
stands for `Date.now()`; `uploadRes` is the blob-store reply (`some e` =
upload error), `insertRes` the metadata-insert reply (the row returned by
`.select().single()` on success).  Returns post-state, issued remote calls,
and the function's own outcome (`Except.error` = the rethrow in `catch`). -/
def uploadDocument (st : DocState) (file : FileInfo) (symbolRoot userId : String)
    (description : Option String) (timestamp : Nat)
    (uploadRes : Option JsError) (insertRes : Except JsError Document) :
    DocState × List RemoteCall × Except JsError Document :=
  let st0 : DocState := { st with isLoading := true, error := none, uploadProgress := 0 }
  let path := storagePathFor symbolRoot userId timestamp file.name
  match uploadRes with
  | some e =>
      ({ st0 with error := some (catchMessage "Failed to upload document" e),
                  isLoading := false },
       [RemoteCall.storageUpload path], Except.error e)
  | none =>
      let ins := RemoteCall.dbInsert userId symbolRoot file.name file.size file.type path
        (jsOrNull description)
      match insertRes with
      | Except.error e =>
          ({ st0 with error := some (catchMessage "Failed to upload document" e),
                      isLoading := false },
           [RemoteCall.storageUpload path, ins], Except.error e)
      | Except.ok row =>
          ({ st0 with uploadProgress := 100, documents := row :: st0.documents,
                      isLoading := false },
           [RemoteCall.storageUpload path, ins], Except.ok row)

/-- The operation `downloadDocument(document)`: `blobRes` is the blob-store download reply.
The `catch` block swallows the error (no rethrow), so the outcome component
is `Except.ok ()` on both paths; the DOM link/click side effects carry no
state. -/
def downloadDocument (st : DocState) (doc : Document) (blobRes : Except JsError Unit) :
    DocState × List RemoteCall × Except JsError Unit :=
  match blobRes with
  | Except.ok _ =>
      (st, [RemoteCall.storageDownload doc.storage_path], Except.ok ())
  | Except.error e =>
      ({ st with error := some (catchMessage "Failed to download document" e) },
       [RemoteCall.storageDownload doc.storage_path], Except.ok ())

/-- The operation `deleteDocument(document)`: `removeRes` is the blob-store remove reply,
`delRes` the metadata-delete reply (`some e` = error).  The metadata delete
is only issued after the blob remove succeeded. -/
def deleteDocument (st : DocState) (doc : Document)
    (removeRes : Option JsError) (delRes : Option JsError) :
    DocState × List RemoteCall × Except JsError Unit :=
  let st0 : DocState := { st with isLoading := true, error := none }
  match removeRes with
  | some e =>
      ({ st0 with error := some (catchMessage "Failed to delete document" e),
                  isLoading := false },
       [RemoteCall.storageRemove doc.storage_path], Except.error e)
  | none =>
      match delRes with
      | some e =>
          ({ st0 with error := some (catchMessage "Failed to delete document" e),
                      isLoading := false },
           [RemoteCall.storageRemove doc.storage_path, RemoteCall.dbDelete doc.id],
           Except.error e)
      | none =>
          ({ st0 with documents := st0.documents.filter (fun d => d.id != doc.id),
                      isLoading := false },
           [RemoteCall.storageRemove doc.storage_path, RemoteCall.dbDelete doc.id],
           Except.ok ())

/-- The start of `fetchDocuments`: `isLoading.value = true; error.value = null`. -/
def fetchStart (st : DocState) : DocState :=
  { st with isLoading := true, error := none }

/-- The remainder of `fetchDocuments`: on success `documents.value = data || []`
(a null reply also yields the empty list); on error the catch block records the
message; the `finally` clause clears `isLoading` on both paths. -/
def fetchFinish (st : DocState) (res : Except JsError (Option (List Document))) : DocState :=
  match res with
  | Except.ok data => { st with documents := data.getD [], isLoading := false }
  | Except.error e =>
      { st with error := some (catchMessage "Failed to fetch documents" e), isLoading := false }

/-- The operation `fetchDocuments(symbolRoot, userId?)` with remote reply `res`. -/
def fetchDocuments (st : DocState) (symbolRoot : String) (userId : Option String)
    (res : Except JsError (Option (List Document))) : DocState × List RemoteCall :=
  (fetchFinish (fetchStart st) res, [RemoteCall.dbSelect symbolRoot userId])

/-- The row filter of the query built in `fetchDocuments`:
`.eq('symbol_root', symbolRoot)`, plus `.eq('user_id', userId)` when given. -/
def matchesQuery (symbolRoot : String) (userId : Option String) (d : Document) : Bool :=
  d.symbol_root == symbolRoot &&
    (match userId with
     | none => true
     | some u => d.user_id == u)

/-- The comparator requested by `.order('uploaded_at', ascending: false)`:
newest (largest `uploaded_at`) first. -/
def newestFirst (d1 d2 : Document) : Bool :=
  decide (d2.uploaded_at ≤ d1.uploaded_at)

/-- Models the external metadata table evaluating the query built in
`fetchDocuments` over its current contents `table`: the rows accepted by the
filter, ordered by `uploaded_at` descending. -/
def evalQuery (table : List Document) (symbolRoot : String) (userId : Option String) :
    List Document :=
  (table.filter (matchesQuery symbolRoot userId)).mergeSort newestFirst

/-- Fuel-driven integer logarithm: `log1024Aux fuel n` is the floor of the
base-1024 logarithm of `n` whenever `1 ≤ n ≤ fuel`. -/
def log1024Aux : Nat → Nat → Nat
  | 0, _ => 0
  | fuel + 1, n => if n < 1024 then 0 else log1024Aux fuel (n / 1024) + 1

/-- The index `Math.floor(Math.log(bytes) / Math.log(1024))` for a positive integer
argument, in exact arithmetic. -/
def log1024 (n : Nat) : Nat := log1024Aux n n

/-- The array `const sizes = ['Bytes', 'KB', 'MB', 'GB']`; indexing past the end gives
JavaScript `undefined`, which stringifies to `"undefined"` when appended. -/
def sizeName (i : Nat) : String :=
  (["Bytes", "KB", "MB", "GB"].getD i "undefined")

/-- The value `Math.round(num / den)` for `den > 0` in exact arithmetic:
the floor of `num / den + 1 / 2`. -/
def jsRound (num den : Nat) : Nat := (2 * num + den) / (2 * den)

/-- JavaScript rendering of the number `hundredths / 100`: trailing zero
decimals are not printed. -/
def renderNumber (hundredths : Nat) : String :=
  if hundredths % 100 == 0 then toString (hundredths / 100)
  else if hundredths % 10 == 0 then
    toString (hundredths / 100) ++ "." ++ toString (hundredths / 10 % 10)
  else
    toString (hundredths / 100) ++ "." ++ toString (hundredths / 10 % 10)
      ++ toString (hundredths % 10)

/-- The helper `formatFileSize(bytes)` of `useDocuments.ts`:
`Math.round(bytes / Math.pow(k, i) * 100) / 100 + ' ' + sizes[i]` with
`i = Math.floor(Math.log(bytes) / Math.log(k))`, `k = 1024`, in exact
arithmetic. -/
def formatFileSize (bytes : Nat) : String :=
  if bytes = 0 then "0 Bytes"
  else
    renderNumber (jsRound (bytes * 100) (1024 ^ log1024 bytes)) ++ " "
      ++ sizeName (log1024 bytes)

/-- From the claim's words: the largest unit index among Bytes/KB/MB/GB such
that the value scaled by base 1024 is at least 1 in that unit. -/
def specUnitIndex (bytes : Nat) : Nat :=
  if 1024 ^ 3 ≤ bytes then 3
  else if 1024 ^ 2 ≤ bytes then 2
  else if 1024 ≤ bytes then 1
  else 0

/-- From the claim's words: the scaled value rounded to 2 decimal places
(nearest, half up), expressed as a count of hundredths over `ℚ`. -/
def specHundredths (bytes i : Nat) : ℤ :=
  ⌊(bytes : ℚ) * 100 / ((1024 : ℚ) ^ i) + 1 / 2⌋

/-- The rendering the claim describes: scale by the largest applicable unit
among Bytes/KB/MB/GB, round to 2 decimal places, print value and unit. -/
def specFormat (bytes : Nat) : String :=
  if bytes = 0 then "0 Bytes"
  else
    renderNumber (specHundredths bytes (specUnitIndex bytes)).toNat ++ " "
      ++ sizeName (specUnitIndex bytes)

/-- The hard-coded list of viewable MIME types in `Documents.vue`
(`isViewableDocument`). -/
def viewableTypes : List String :=
  ["application/pdf", "image/png", "image/jpeg", "image/jpg", "image/gif",
   "image/webp", "text/plain", "text/html", "text/csv"]

/-- The view-layer test `isViewableDocument(fileType)`:
`viewableTypes.includes(fileType)`. -/
def isViewableDocument (fileType : String) : Bool :=
  viewableTypes.contains fileType

/-- The per-row actions formatter of the grid column: the view button is
rendered only when `isViewableDocument(file_type)`, the download and delete
buttons always. -/
def actionButtons (d : Document) : List String :=
  (if isViewableDocument d.file_type then ["btn-view"] else [])
    ++ ["btn-download", "btn-delete"]

/-- The previewable-type predicate as the claim words it: `application/pdf`,
every `image/*` type, `text/plain`, `text/html`, `text/csv`. -/
def claimPreviewable (fileType : String) : Bool :=
  fileType == "application/pdf" || List.isPrefixOf "image/".data fileType.data
    || fileType == "text/plain" || fileType == "text/html" || fileType == "text/csv"

/-- A concrete document row carrying an `image/*` MIME type that is not in
the hard-coded list. -/
def svgDoc : Document :=
  { id := "doc-1", user_id := "user-1", symbol_root := "IBIT",
    file_name := "logo.svg", file_size := 512, file_type := "image/svg+xml",
    storage_path := "IBIT/user-1/1700000000000_logo.svg",
    uploaded_at := "2024-01-01T00:00:00Z", description := none }

end DocApp

namespace DocApp

/-- C1: when the blob-store upload step fails, `uploadDocument` rethrows the
error to the caller, sets the error state to the catch-derived message,
issues only the blob upload (no metadata insert), and leaves the local
document list exactly as it was. -/
theorem upload_blob_failure_propagates (st : DocState) (file : FileInfo)
    (symbolRoot userId : String) (description : Option String) (timestamp : Nat)
    (e : JsError) (insertRes : Except JsError Document) :
    (uploadDocument st file symbolRoot userId description timestamp (some e) insertRes).2.2
        = Except.error e ∧
    (uploadDocument st file symbolRoot userId description timestamp (some e) insertRes).1.error
        = some (catchMessage "Failed to upload document" e) ∧
    (uploadDocument st file symbolRoot userId description timestamp (some e) insertRes).2.1
        = [RemoteCall.storageUpload (storagePathFor symbolRoot userId timestamp file.name)] ∧
    ((uploadDocument st file symbolRoot userId description timestamp (some e) insertRes).2.1.all
        (fun c => !c.isDbInsert)) = true ∧
    (uploadDocument st file symbolRoot userId description timestamp (some e) insertRes).1.documents
        = st.documents := by
  exact ⟨rfl, rfl, rfl, rfl, rfl⟩

/-- C6: when both the blob upload and the metadata insert succeed,
`uploadDocument` sets the progress to 100, prepends the returned row to the
local list (new head, previous elements retained in order), and returns the
row. -/
theorem upload_success_prepends (st : DocState) (file : FileInfo)
    (symbolRoot userId : String) (description : Option String) (timestamp : Nat)
    (row : Document) :
    (uploadDocument st file symbolRoot userId description timestamp none
        (Except.ok row)).1.uploadProgress = 100 ∧
    (uploadDocument st file symbolRoot userId description timestamp none
        (Except.ok row)).1.documents = row :: st.documents ∧
    (uploadDocument st file symbolRoot userId description timestamp none
        (Except.ok row)).1.documents.head? = some row ∧
    (uploadDocument st file symbolRoot userId description timestamp none
        (Except.ok row)).1.documents.tail = st.documents ∧
    (uploadDocument st file symbolRoot userId description timestamp none
        (Except.ok row)).2.2 = Except.ok row := by
  exact ⟨rfl, rfl, rfl, rfl, rfl⟩

/-- C7: `downloadDocument` returns normally on every outcome (the catch block
does not rethrow); on failure it records the catch-derived message in the
error state and changes nothing else; on success the state is untouched. -/
theorem download_never_throws (st : DocState) (doc : Document)
    (blobRes : Except JsError Unit) (e : JsError) :
    (downloadDocument st doc blobRes).2.2 = Except.ok () ∧
    (downloadDocument st doc (Except.ok ())).1 = st ∧
    (downloadDocument st doc (Except.error e)).1
        = { st with error := some (catchMessage "Failed to download document" e) } ∧
    (downloadDocument st doc (Except.error e)).1.documents = st.documents ∧
    (downloadDocument st doc (Except.error e)).1.isLoading = st.isLoading ∧
    (downloadDocument st doc (Except.error e)).1.uploadProgress = st.uploadProgress := by
  refine ⟨?_, rfl, rfl, rfl, rfl, rfl⟩
  cases blobRes with
  | ok u => cases u; exact rfl
  | error e2 => exact rfl

/-- C2: the blob remove is issued first in every execution of
`deleteDocument`; if the blob remove fails the error is rethrown, no
metadata delete is issued and the local list is untouched; if both steps
succeed, exactly the entries whose `id` equals the record's `id` are removed
from the local list. -/
theorem delete_order_and_failure (st : DocState) (doc : Document)
    (removeRes delRes : Option JsError) (e : JsError) :
    (deleteDocument st doc removeRes delRes).2.1.head?
        = some (RemoteCall.storageRemove doc.storage_path) ∧
    (deleteDocument st doc (some e) delRes).2.2 = Except.error e ∧
    ((deleteDocument st doc (some e) delRes).2.1.all (fun c => !c.isDbDelete)) = true ∧
    (deleteDocument st doc (some e) delRes).1.documents = st.documents ∧
    (deleteDocument st doc (some e) delRes).1.error
        = some (catchMessage "Failed to delete document" e) ∧
    (deleteDocument st doc none none).2.2 = Except.ok () ∧
    (∀ d, d ∈ (deleteDocument st doc none none).1.documents
        ↔ d ∈ st.documents ∧ d.id ≠ doc.id) := by
  refine ⟨?_, rfl, rfl, rfl, rfl, rfl, ?_⟩
  · cases removeRes with
    | some e2 => exact rfl
    | none => cases delRes with
      | some e2 => exact rfl
      | none => exact rfl
  · intro d
    simp [deleteDocument, List.mem_filter, bne_iff_ne]

/-- C10: after a full-success `deleteDocument`, the local-list update is the
filter that drops every entry whose `id` equals the record's `id`: the new
list is that filter, no entry with the record's `id` survives (however many
there were), and the survivors keep their original relative order (the new
list is a sublist of the old one). -/
theorem delete_success_filters_by_id (st : DocState) (doc : Document) :
    (deleteDocument st doc none none).1.documents
        = st.documents.filter (fun d => d.id != doc.id) ∧
    ((deleteDocument st doc none none).1.documents).Sublist st.documents ∧
    ((deleteDocument st doc none none).1.documents.all
        (fun d => !(d.id == doc.id))) = true ∧
    (∀ d, d ∈ st.documents → d.id ≠ doc.id
        → d ∈ (deleteDocument st doc none none).1.documents) := by
  refine ⟨rfl, ?_, ?_, ?_⟩
  · exact List.filter_sublist st.documents
  · simp only [deleteDocument, List.all_eq_true]
    intro c hc
    exact (List.mem_filter.mp hc).2
  · intro d hd hne
    simp [deleteDocument, List.mem_filter, bne_iff_ne]
    exact ⟨hd, hne⟩

/-- The Boolean character test of the sanitizing regex agrees with the
propositional character class `[A-Za-z0-9.-]`. -/
theorem sanitizeChar_eq_spec (c : Char) :
    sanitizeChar c = if ('a' ≤ c ∧ c ≤ 'z') ∨ ('A' ≤ c ∧ c ≤ 'Z') ∨ ('0' ≤ c ∧ c ≤ '9')
        ∨ c = '.' ∨ c = '-' then c else '_' := by
  simp only [sanitizeChar, Bool.or_eq_true, Bool.and_eq_true, decide_eq_true_eq, beq_iff_eq,
    or_assoc]

/-- C5: every execution of `uploadDocument` addresses the blob store at
`symbolRoot ++ "/" ++ userId ++ "/" ++ timestamp ++ "_" ++ sanitized name`,
and the sanitizer maps each character outside `[A-Za-z0-9.-]` to `_` and
keeps every other character unchanged. -/
theorem upload_storage_path (st : DocState) (file : FileInfo)
    (symbolRoot userId : String) (description : Option String) (timestamp : Nat)
    (uploadRes : Option JsError) (insertRes : Except JsError Document) :
    (uploadDocument st file symbolRoot userId description timestamp uploadRes insertRes).2.1.head?
        = some (RemoteCall.storageUpload
            (symbolRoot ++ "/" ++ userId ++ "/" ++ toString timestamp ++ "_"
              ++ sanitizeFileName file.name)) ∧
    (sanitizeFileName file.name).data = file.name.data.map
        (fun c => if ('a' ≤ c ∧ c ≤ 'z') ∨ ('A' ≤ c ∧ c ≤ 'Z') ∨ ('0' ≤ c ∧ c ≤ '9')
            ∨ c = '.' ∨ c = '-' then c else '_') := by
  constructor
  · cases uploadRes with
    | some e => exact rfl
    | none => cases insertRes with
      | error e => exact rfl
      | ok row => exact rfl
  · have h : sanitizeChar = fun c : Char =>
        if ('a' ≤ c ∧ c ≤ 'z') ∨ ('A' ≤ c ∧ c ≤ 'Z') ∨ ('0' ≤ c ∧ c ≤ '9')
            ∨ c = '.' ∨ c = '-' then c else '_' :=
      funext sanitizeChar_eq_spec
    show file.name.data.map sanitizeChar = _
    rw [h]

/-- C3: `fetchDocuments` begins by setting the loading flag and clearing the
error without touching the list; on success it replaces the entire list with
the reply (a null reply gives the empty list) and leaves no error; the reply
the modelled server produces is a permutation of the scope-and-owner filter
of the table, ordered by `uploaded_at` descending, with the owner filter
applied exactly when an owner is given; on failure the previous list is kept
and the error message is recorded; the loading flag is cleared on both
paths. -/
theorem fetch_spec (st : DocState) (symbolRoot u0 : String) (userId : Option String)
    (table rows : List Document) (e : JsError) (d : Document) :
    (fetchStart st).isLoading = true ∧
    (fetchStart st).error = none ∧
    (fetchStart st).documents = st.documents ∧
    (fetchDocuments st symbolRoot userId (Except.ok (some rows))).1.documents = rows ∧
    (fetchDocuments st symbolRoot userId (Except.ok (some rows))).1.error = none ∧
    (fetchDocuments st symbolRoot userId (Except.ok (some rows))).1.isLoading = false ∧
    (fetchDocuments st symbolRoot userId (Except.ok none)).1.documents = [] ∧
    (fetchDocuments st symbolRoot userId (Except.ok none)).1.error = none ∧
    ((evalQuery table symbolRoot userId).Perm
        (table.filter (matchesQuery symbolRoot userId))) ∧
    ((evalQuery table symbolRoot userId).Pairwise
        (fun d1 d2 => d2.uploaded_at ≤ d1.uploaded_at)) ∧
    (d ∈ evalQuery table symbolRoot (some u0)
        ↔ d ∈ table ∧ d.symbol_root = symbolRoot ∧ d.user_id = u0) ∧
    (d ∈ evalQuery table symbolRoot none
        ↔ d ∈ table ∧ d.symbol_root = symbolRoot) ∧
    (fetchDocuments st symbolRoot userId (Except.error e)).1.documents = st.documents ∧
    (fetchDocuments st symbolRoot userId (Except.error e)).1.error
        = some (catchMessage "Failed to fetch documents" e) ∧
    (fetchDocuments st symbolRoot userId (Except.error e)).1.isLoading = false ∧
    (fetchDocuments st symbolRoot userId (Except.error e)).2
        = [RemoteCall.dbSelect symbolRoot userId] := by
  have tr : ∀ a b c : Document, newestFirst a b = true → newestFirst b c = true →
      newestFirst a c = true := by
    intro a b c hab hbc
    simp only [newestFirst, decide_eq_true_eq] at hab hbc ⊢
    exact le_trans hbc hab
  have tot : ∀ a b : Document, (newestFirst a b || newestFirst b a) = true := by
    intro a b
    simp only [newestFirst, Bool.or_eq_true, decide_eq_true_eq]
    exact le_total b.uploaded_at a.uploaded_at
  refine ⟨rfl, rfl, rfl, rfl, rfl, rfl, rfl, rfl, ?_, ?_, ?_, ?_, rfl, rfl, rfl, rfl⟩
  · exact List.mergeSort_perm (table.filter (matchesQuery symbolRoot userId)) newestFirst
  · have hs := List.sorted_mergeSort tr tot (table.filter (matchesQuery symbolRoot userId))
    exact hs.imp (fun hab => by simpa only [newestFirst, decide_eq_true_eq] using hab)
  · simp only [evalQuery]
    rw [(List.mergeSort_perm (table.filter (matchesQuery symbolRoot (some u0)))
      newestFirst).mem_iff]
    simp [List.mem_filter, matchesQuery, and_assoc]
  · simp only [evalQuery]
    rw [(List.mergeSort_perm (table.filter (matchesQuery symbolRoot none))
      newestFirst).mem_iff]
    simp [List.mem_filter, matchesQuery]

/-- Lemma: `log1024Aux` computes the floor of the base-1024 logarithm when given
enough fuel. -/
theorem log1024Aux_bounds : ∀ (fuel n : Nat), 0 < n → n ≤ fuel →
    1024 ^ (log1024Aux fuel n) ≤ n ∧ n < 1024 ^ (log1024Aux fuel n + 1) := by
  intro fuel
  induction fuel with
  | zero => intro n h1 h2; omega
  | succ fuel ih =>
    intro n h1 h2
    by_cases h : n < 1024
    · rw [log1024Aux, if_pos h]
      simpa using ⟨h1, h⟩
    · have hn : 1024 ≤ n := Nat.not_lt.mp h
      have hq1 : 0 < n / 1024 := Nat.div_pos hn (by norm_num)
      have hlt : n / 1024 < n := Nat.div_lt_self h1 (by norm_num)
      have hq2 : n / 1024 ≤ fuel := by omega
      obtain ⟨hl, hr⟩ := ih (n / 1024) hq1 hq2
      rw [log1024Aux, if_neg h]
      constructor
      · calc 1024 ^ (log1024Aux fuel (n / 1024) + 1)
            = 1024 ^ (log1024Aux fuel (n / 1024)) * 1024 := by ring
          _ ≤ (n / 1024) * 1024 := Nat.mul_le_mul_right _ hl
          _ ≤ n := by
              have := Nat.div_add_mod n 1024
              omega
      · have hst : n < 1024 * (n / 1024 + 1) := by
          have := Nat.div_add_mod n 1024
          have hm : n % 1024 < 1024 := Nat.mod_lt _ (by norm_num)
          omega
        calc n < 1024 * (n / 1024 + 1) := hst
          _ ≤ 1024 * 1024 ^ (log1024Aux fuel (n / 1024) + 1) :=
              Nat.mul_le_mul_left _ hr
          _ = 1024 ^ (log1024Aux fuel (n / 1024) + 1 + 1) := by ring

/-- Lemma: `log1024` is the floor of the base-1024 logarithm on positive input. -/
theorem log1024_bounds (n : Nat) (h : 0 < n) :
    1024 ^ log1024 n ≤ n ∧ n < 1024 ^ (log1024 n + 1) :=
  log1024Aux_bounds n n h le_rfl

/-- Below a terabyte, the exponent `formatFileSize` computes is the claim's
largest-applicable-unit index. -/
theorem log1024_eq_specUnitIndex (n : Nat) (h1 : 0 < n) (h2 : n < 1024 ^ 4) :
    log1024 n = specUnitIndex n := by
  obtain ⟨hl, hr⟩ := log1024_bounds n h1
  have hL3 : log1024 n ≤ 3 := by
    by_contra hgt
    push_neg at hgt
    have hle : (1024 : ℕ) ^ 4 ≤ 1024 ^ log1024 n := Nat.pow_le_pow_right (by norm_num) hgt
    omega
  set L := log1024 n with hLdef
  interval_cases L <;>
    simp only [specUnitIndex] <;> split_ifs <;> norm_num at * <;> omega

/-- The floor of a quotient of naturals over `ℚ` is their natural division. -/
theorem int_floor_nat_div (a b : Nat) :
    ⌊(a : ℚ) / (b : ℚ)⌋ = ((a / b : ℕ) : ℤ) := by
  by_cases hb : b = 0
  · subst hb; simp
  · have h0 : (0 : ℚ) ≤ (a : ℚ) / (b : ℚ) := by positivity
    rw [← Int.natCast_floor_eq_floor h0, Nat.floor_div_nat, Nat.floor_natCast]

/-- The claim's rational round-to-hundredths equals the exact-arithmetic
`Math.round` the embedded code uses. -/
theorem specHundredths_eq (bytes i : Nat) :
    specHundredths bytes i = ((jsRound (bytes * 100) (1024 ^ i) : ℕ) : ℤ) := by
  unfold specHundredths jsRound
  have hp : ((1024 : ℚ) ^ i) ≠ 0 := by positivity
  have key : (bytes : ℚ) * 100 / ((1024 : ℚ) ^ i) + 1 / 2
      = ((2 * (bytes * 100) + 1024 ^ i : ℕ) : ℚ) / ((2 * 1024 ^ i : ℕ) : ℚ) := by
    push_cast
    field_simp
    ring
  rw [key, int_floor_nat_div]

/-- On nonzero input, the claim's rendering reduces to the shared
exact-arithmetic renderer. -/
theorem specFormat_eq_render (bytes : Nat) (h : bytes ≠ 0) :
    specFormat bytes
      = renderNumber (jsRound (bytes * 100) (1024 ^ specUnitIndex bytes)) ++ " "
        ++ sizeName (specUnitIndex bytes) := by
  unfold specFormat
  rw [if_neg h, specHundredths_eq, Int.toNat_natCast]

/-- C4 (amended): on every positive byte count below `1024 ^ 4`,
`formatFileSize` renders exactly what the claim describes: largest applicable
unit among Bytes/KB/MB/GB, value rounded to 2 decimal places, rendered as
value-space-unit. -/
theorem formatFileSize_matches_spec (bytes : Nat) (h1 : 0 < bytes)
    (h2 : bytes < 1024 ^ 4) :
    formatFileSize bytes = specFormat bytes := by
  have hne : bytes ≠ 0 := by omega
  rw [specFormat_eq_render bytes hne]
  unfold formatFileSize
  rw [if_neg hne, log1024_eq_specUnitIndex bytes h1 h2]

/-- Witness for C4's amended theorem at the concrete input 1536. -/
theorem formatFileSize_matches_spec_witness :
    0 < 1536 ∧ 1536 < 1024 ^ 4 ∧ formatFileSize 1536 = specFormat 1536 :=
  ⟨by norm_num, by norm_num,
    formatFileSize_matches_spec 1536 (by norm_num) (by norm_num)⟩

/-- C4 (counterexample): at one terabyte the claim predicts `"1024 GB"`, but
the code indexes past the unit array and renders `"1 undefined"`. -/
theorem formatFileSize_terabyte_counterexample :
    specFormat 1099511627776 = "1024 GB" ∧
    formatFileSize 1099511627776 = "1 undefined" ∧
    formatFileSize 1099511627776 ≠ specFormat 1099511627776 := by
  have h1 := specFormat_eq_render 1099511627776 (by norm_num)
  refine ⟨?_, ?_, ?_⟩
  · rw [h1]; decide
  · decide
  · rw [h1]; decide

/-- C8: the spec's concrete examples of `formatFileSize`. -/
theorem formatFileSize_examples :
    formatFileSize 1024 = "1 KB" ∧ formatFileSize 1536 = "1.5 KB" ∧
    formatFileSize 1048576 = "1 MB" ∧ formatFileSize 0 = "0 Bytes" := by
  refine ⟨by decide, by decide, by decide, rfl⟩

/-- The code's Boolean membership test agrees with list membership. -/
theorem isViewable_iff (t : String) :
    isViewableDocument t = true ↔ t ∈ viewableTypes := by
  simp [isViewableDocument, List.contains_iff_exists_mem_beq]

/-- C9 (counterexample): `image/svg+xml` is an `image/*` type, so the claim
says the view action is offered for it, but the code's list excludes it and
no view button is rendered; hence the claimed equivalence fails. -/
theorem view_action_counterexample :
    claimPreviewable svgDoc.file_type = true ∧
    isViewableDocument svgDoc.file_type = false ∧
    ("btn-view" ∉ actionButtons svgDoc) ∧
    ¬ (∀ d : Document, "btn-view" ∈ actionButtons d
        ↔ claimPreviewable d.file_type = true) := by
  refine ⟨by decide, by decide, by decide, ?_⟩
  intro hall
  have hmem : "btn-view" ∈ actionButtons svgDoc := (hall svgDoc).mpr (by decide)
  exact absurd hmem (by decide)

/-- C9 (amended): the view action is offered exactly for the nine MIME types
hard-coded in `Documents.vue`: `application/pdf`, `image/png`, `image/jpeg`,
`image/jpg`, `image/gif`, `image/webp`, `text/plain`, `text/html`,
`text/csv`. -/
theorem view_action_iff_listed (d : Document) :
    "btn-view" ∈ actionButtons d ↔ d.file_type ∈ viewableTypes := by
  by_cases h : isViewableDocument d.file_type
  · simp only [actionButtons, if_pos h]
    simp [(isViewable_iff d.file_type).mp h]
  · have hb : isViewableDocument d.file_type = false := by simpa using h
    simp only [actionButtons, if_neg h]
    constructor
    · intro hmem
      simp at hmem
    · intro hmem
      exact absurd ((isViewable_iff d.file_type).mpr hmem) (by simp [hb])

end DocApp
